import Mathlib

/-!
Verification of the TOS (Table of Specifications) generator.

This file shallowly embeds the two core functions of `src/app.py` —
`generate_tos` (the allocator) and `generate_quiz_items` (the item
materializer) — and proves or refutes the claims of the specification about them.

Embedding conventions:
* Python integers are `ℤ`.  Python `//` and `%` match the Lean `Int`
  division/modulo (`Int.ediv` / `Int.emod`) whenever the divisor is
  positive, which is the case at every division site of the source
  (`len(competencies)` inside the loop body, the literal weight
  denominator 20, and `total_items`, whose zero case is modelled as the
  Python `ZeroDivisionError`, i.e. `none`).
* The Bloom weight table `{0.20, 0.20, 0.25, 0.15, 0.10, 0.10}` is
  embedded as the exact rationals `4/20, 4/20, 5/20, 3/20, 2/20, 2/20`;
  every rounded quantity of the source is a ratio of integers, so
  the Python `round` builtin (round-half-to-even) is embedded as `pyRound a b`,
  the half-to-even rounding of the exact fraction `a / b` computed with
  integer arithmetic only.
* Python dicts keyed by the six cognitive levels preserve insertion
  order, embedded as the fixed list `levelOrder`; dict value updates
  (`counts["Applying"] += diff`) are function updates.
* A Python run that raises (`ZeroDivisionError`, `KeyError`) is `none`;
  a normal return is `some`.
-/

namespace TosApp

/-- Round-half-to-even of the exact fraction `a / b` for `0 < b`,
computed with integer arithmetic: below the midpoint round down, above
it round up, and on the exact midpoint round to the even neighbour. -/
def pyRoundPos (a b : ℤ) : ℤ :=
  if 2 * (a % b) < b then a / b
  else if b < 2 * (a % b) then a / b + 1
  else if (a / b) % 2 = 0 then a / b else a / b + 1

/-- The Python `round` builtin applied to the exact fraction `a / b`,
for `b ≠ 0` (round-half-to-even).  The sign of the denominator is
normalised first so that `%` yields a remainder in `[0, b)`. -/
def pyRound (a b : ℤ) : ℤ :=
  if b < 0 then pyRoundPos (-a) (-b) else pyRoundPos a b

/-- The six cognitive levels of `BLOOM_DISTRIBUTION` (src/app.py lines 12-19). -/
inductive Level where
  | remembering
  | understanding
  | applying
  | analyzing
  | evaluating
  | creating
deriving DecidableEq, Repr

/-- The insertion order of the `BLOOM_DISTRIBUTION` dict, which is the
iteration order of every loop over its keys in the source. -/
def levelOrder : List Level :=
  [.remembering, .understanding, .applying, .analyzing, .evaluating, .creating]

/-- Numerator of each `BLOOM_DISTRIBUTION` weight over the common
denominator 20: 0.20 = 4/20, 0.25 = 5/20, 0.15 = 3/20, 0.10 = 2/20. -/
def weightNum20 : Level → ℤ
  | .remembering => 4
  | .understanding => 4
  | .applying => 5
  | .analyzing => 3
  | .evaluating => 2
  | .creating => 2

/-- The Python string name of each level (the dict keys /
`Cognitive Level` column values). -/
def Level.pyName : Level → String
  | .remembering => "Remembering"
  | .understanding => "Understanding"
  | .applying => "Applying"
  | .analyzing => "Analyzing"
  | .evaluating => "Evaluating"
  | .creating => "Creating"

/-- A MELC competency: the dicts `{"code": ..., "desc": ...}` of the source. -/
structure Competency where
  code : String
  desc : String
deriving DecidableEq, Repr

/-- `counts` before adjustment (src/app.py line 102):
`round(BLOOM_DISTRIBUTION[level] * total_items)` per level. -/
def countsBase (t : ℤ) (l : Level) : ℤ :=
  pyRound (weightNum20 l * t) 20

/-- `sum(counts.values())` over the six levels (src/app.py line 105). -/
def countsBaseSum (t : ℤ) : ℤ :=
  countsBase t .remembering + countsBase t .understanding + countsBase t .applying +
    countsBase t .analyzing + countsBase t .evaluating + countsBase t .creating

/-- The adjusted global `counts` dict (src/app.py lines 102-109): a
positive shortfall is added to `Applying`, a negative excess to
`Creating`. -/
def globalCounts (t : ℤ) : Level → ℤ :=
  let diff := t - countsBaseSum t
  if 0 < diff then
    fun l => if l = .applying then countsBase t l + diff else countsBase t l
  else if diff < 0 then
    fun l => if l = .creating then countsBase t l + diff else countsBase t l
  else
    countsBase t

/-- `comp_items` for one competency (src/app.py lines 117-119):
`total_items // len(competencies)` plus one extra when
`competencies.index(comp) < total_items % len(competencies)`.
Note that `list.index` finds the *first* occurrence of the value. -/
def compShare (comps : List Competency) (t : ℤ) (c : Competency) : ℤ :=
  let n : ℤ := comps.length
  let idx : ℤ := comps.indexOf c
  t / n + (if idx < t % n then 1 else 0)

/-- `comp_counts` before adjustment (src/app.py line 122):
`round(counts[level] * comp_items / total_items)` per level, where
`counts` is the already-adjusted global dict. -/
def compCountsBase (t compItems : ℤ) (l : Level) : ℤ :=
  pyRound (globalCounts t l * compItems) t

/-- `sum(comp_counts.values())` (src/app.py line 123). -/
def compCountsBaseSum (t compItems : ℤ) : ℤ :=
  compCountsBase t compItems .remembering + compCountsBase t compItems .understanding +
    compCountsBase t compItems .applying + compCountsBase t compItems .analyzing +
    compCountsBase t compItems .evaluating + compCountsBase t compItems .creating

/-- The adjusted `comp_counts` dict (src/app.py lines 122-125): a
positive `comp_diff` is added to `Applying`; a negative one is left
uncorrected (the source has no `elif` branch here). -/
def compLevelCounts (t compItems : ℤ) : Level → ℤ :=
  let d := compItems - compCountsBaseSum t compItems
  if 0 < d then
    fun l => if l = .applying then compCountsBase t compItems l + d else compCountsBase t compItems l
  else
    compCountsBase t compItems

/-- `item_type` from the level (src/app.py lines 130-135). -/
def itemTypeFor (l : Level) : String :=
  if l = .remembering ∨ l = .understanding then "Multiple Choice"
  else if l = .applying ∨ l = .analyzing then "Short Answer"
  else "Essay"

/-- The same level → item-type branch keyed by the string name of the level,
as a standalone map (the claimed pure function of the Cognitive Level
column). -/
def itemTypeOfName (level : String) : String :=
  if level = "Remembering" ∨ level = "Understanding" then "Multiple Choice"
  else if level = "Applying" ∨ level = "Analyzing" then "Short Answer"
  else "Essay"

/-- `point_val` from the item type (src/app.py line 137). -/
def pointValueFor (itemType : String) : ℤ :=
  if itemType = "Multiple Choice" then 1
  else if itemType = "Short Answer" then 2
  else 5

/-- One row of the TOS DataFrame (src/app.py lines 139-146). -/
structure Row where
  itemNo : ℤ
  cognitiveLevel : String
  competency : String
  itemType : String
  pointValue : ℤ
  remarks : String
deriving DecidableEq, Repr

/-- The row dict appended for item number `n`, level `l`, competency `c`
(src/app.py lines 139-146). -/
def mkRow (n : ℤ) (l : Level) (c : Competency) : Row :=
  { itemNo := n
    cognitiveLevel := l.pyName
    competency := c.code ++ ": " ++ c.desc
    itemType := itemTypeFor l
    pointValue := pointValueFor (itemTypeFor l)
    remarks := "" }

/-- The (level, competency) pairs emitted for one competency: for each
level in dict order, `comp_counts[level]` repetitions (src/app.py lines
127-128; `range(n)` is empty for `n ≤ 0`, hence `Int.toNat`). -/
def compPairs (comps : List Competency) (t : ℤ) (c : Competency) : List (Level × Competency) :=
  let cc := compLevelCounts t (compShare comps t c)
  levelOrder.flatMap fun l => List.replicate (cc l).toNat (l, c)

/-- Materialise rows from the pair sequence, numbering sequentially from
`n` (the `item_no` counter of src/app.py lines 112 and 147). -/
def emitFrom (n : ℤ) : List (Level × Competency) → List Row
  | [] => []
  | p :: rest => mkRow n p.1 p.2 :: emitFrom (n + 1) rest

/-- `generate_tos` (src/app.py lines 100-148).  `none` models the
`ZeroDivisionError` raised at line 122 when `total_items == 0` and the
competency loop body runs at least once; every other input returns the
row list normally (the source performs no input validation). -/
def generate_tos (comps : List Competency) (t : ℤ) : Option (List Row) :=
  if comps ≠ [] ∧ t = 0 then none
  else some (emitFrom 1 (comps.flatMap (compPairs comps t)))

/-- `BLOOM_VERBS` (src/app.py lines 22-29) as a keyed lookup; `none`
models the `KeyError` for an unknown key. -/
def BLOOM_VERBS (level : String) : Option (List String) :=
  if level = "Remembering" then some ["define", "list", "name", "recall", "identify"]
  else if level = "Understanding" then some ["explain", "describe", "summarize", "paraphrase", "classify"]
  else if level = "Applying" then some ["solve", "use", "apply", "demonstrate", "calculate"]
  else if level = "Analyzing" then some ["compare", "contrast", "categorize", "differentiate", "infer"]
  else if level = "Evaluating" then some ["justify", "assess", "critique", "defend", "recommend"]
  else if level = "Creating" then some ["design", "construct", "develop", "propose", "formulate"]
  else none

/-- One quiz item (src/app.py lines 185-190). -/
structure QuizItem where
  item_no : ℤ
  text : String
  answer : String
  points : ℤ
deriving DecidableEq, Repr

/-- The loop body of `generate_quiz_items` for one row (src/app.py lines
153-190).  The verb lookup `BLOOM_VERBS[level][0].capitalize()` raises
`KeyError` (`none`) on an unknown level; the verb lists are non-empty
lowercase-ASCII literals, so `List.headD` and `String.capitalize` match
the Python `[0]` and `.capitalize()`.  The local `topic` of line 160 is
computed but never used by the source and is omitted here.  The item
type dispatch is `if` / `elif` / `else`: anything other than
"Multiple Choice" and "Short Answer" falls into the Essay branch. -/
def quizStep (row : Row) : Option QuizItem :=
  match BLOOM_VERBS row.cognitiveLevel with
  | none => none
  | some verbs =>
    let verb := (verbs.headD "").capitalize
    if row.itemType = "Multiple Choice" then
      some { item_no := row.itemNo
             text := verb ++ " the following:\nWhat is the primary characteristic of mechanical waves?\n"
               ++ "A. They can travel through vacuum.\n"
               ++ "B. They require a medium to propagate.\n"
               ++ "C. They are always transverse.\n"
               ++ "D. They travel faster than light.\n"
             answer := "✓ B"
             points := row.pointValue }
    else if row.itemType = "Short Answer" then
      some { item_no := row.itemNo
             text := verb ++ " how sound waves carry energy through air.\n" ++ "(2–3 sentences)\n"
             answer := "[Sample] Sound waves carry energy by compressing and rarefying air particles, transferring kinetic energy from one particle to the next."
             points := row.pointValue }
    else
      some { item_no := row.itemNo
             text := verb ++ " an experiment to demonstrate wave reflection and refraction using everyday materials. Justify your design choices.\n"
             answer := "[Rubric: 5 pts total]\n"
               ++ "• Content (3 pts): Accurate science, clear steps\n"
               ++ "• Organization (1 pt): Logical flow\n"
               ++ "• Mechanics (1 pt): Grammar, spelling\n"
             points := row.pointValue }

/-- `generate_quiz_items` (src/app.py lines 151-191): the loop body over
each row in order; a raised `KeyError` aborts the whole call (`none`). -/
def generate_quiz_items : List Row → Option (List QuizItem)
  | [] => some []
  | r :: rest =>
    match quizStep r, generate_quiz_items rest with
    | some q, some qs => some (q :: qs)
    | _, _ => none

/-- The first sample MELC of `MELC_DATABASE` (src/app.py line 36), used
as the concrete competency of the scenarios of the spec. -/
def sampleCompetency : Competency :=
  { code := "M7NS-Ia-1"
    desc := "Describes well-defined sets, subsets, universal set, and the null set and cardinality of sets." }

/-- A second distinct competency for concrete multi-competency inputs. -/
def sampleCompetencyB : Competency :=
  { code := "M7NS-Ib-1", desc := "Solves problems involving sets." }

/-- A third distinct competency for concrete multi-competency inputs. -/
def sampleCompetencyC : Competency :=
  { code := "M7NS-Ic-1", desc := "Represents the union and intersection of sets using Venn Diagrams." }

/-- A row whose `Item Type` is none of the three recognised values, with
an otherwise valid cognitive level. -/
def bogusTypeRow : Row :=
  { itemNo := 1
    cognitiveLevel := "Remembering"
    competency := "X: y"
    itemType := "Bogus"
    pointValue := 7
    remarks := "" }


/-! ## Arithmetic facts about the rounding helper -/

lemma pyRoundPos_bounds (a b : ℤ) (hb : 0 < b) :
    2 * a - b ≤ 2 * b * pyRoundPos a b ∧ 2 * b * pyRoundPos a b ≤ 2 * a + b := by
  have h1 := Int.ediv_add_emod a b
  have h2 := Int.emod_nonneg a (ne_of_gt hb)
  have h3 := Int.emod_lt_of_pos a hb
  unfold pyRoundPos
  split_ifs with hc1 hc2 hc3 <;> constructor <;> nlinarith

lemma pyRoundPos_nonneg (a b : ℤ) (ha : 0 ≤ a) (hb : 0 < b) : 0 ≤ pyRoundPos a b := by
  have h1 := Int.ediv_add_emod a b
  have h2 := Int.emod_nonneg a (ne_of_gt hb)
  have h4 : 0 ≤ a / b := Int.ediv_nonneg ha (le_of_lt hb)
  unfold pyRoundPos
  split_ifs <;> omega

lemma pyRoundPos_mul_cancel (x b : ℤ) (hb : 0 < b) : pyRoundPos (x * b) b = x := by
  unfold pyRoundPos
  rw [Int.mul_emod_left, Int.mul_ediv_cancel x (ne_of_gt hb)]
  rw [if_pos (by omega)]

lemma pyRound_of_pos (a b : ℤ) (hb : 0 < b) : pyRound a b = pyRoundPos a b := by
  unfold pyRound
  rw [if_neg (by omega)]

lemma pyRound_mul_cancel (x b : ℤ) (hb : 0 < b) : pyRound (x * b) b = x := by
  rw [pyRound_of_pos _ _ hb, pyRoundPos_mul_cancel x b hb]

/-! ## The global per-level counts -/

/-- The adjusted global counts always absorb the rounding difference:
their sum over the six levels is exactly the requested total. -/
lemma globalCounts_sum (t : ℤ) : (levelOrder.map (globalCounts t)).sum = t := by
  have hs : countsBase t .remembering + countsBase t .understanding + countsBase t .applying +
      countsBase t .analyzing + countsBase t .evaluating + countsBase t .creating
      = countsBaseSum t := rfl
  simp only [globalCounts]
  split_ifs with h1 h2 <;> simp [levelOrder] <;> omega

/-- Pointwise description of `globalCounts`, stating the dict updates of
src/app.py lines 105-109 per level. -/
lemma globalCounts_def (t : ℤ) (l : Level) :
    globalCounts t l =
      if 0 < t - countsBaseSum t then
        (if l = .applying then countsBase t l + (t - countsBaseSum t) else countsBase t l)
      else if t - countsBaseSum t < 0 then
        (if l = .creating then countsBase t l + (t - countsBaseSum t) else countsBase t l)
      else countsBase t l := by
  simp only [globalCounts]
  split_ifs <;> simp_all

/-- Each adjusted global count is non-negative whenever `1 ≤ t`. -/
lemma globalCounts_nonneg (t : ℤ) (ht : 1 ≤ t) (l : Level) : 0 ≤ globalCounts t l := by
  rcases le_or_lt t 34 with h34 | h34
  · interval_cases t <;> cases l <;> decide
  · have h20 : (0:ℤ) < 20 := by norm_num
    have hA := pyRoundPos_bounds (4 * t) 20 h20
    have hB := pyRoundPos_bounds (5 * t) 20 h20
    have hC := pyRoundPos_bounds (3 * t) 20 h20
    have hD := pyRoundPos_bounds (2 * t) 20 h20
    cases l <;> rw [globalCounts_def] <;>
      simp only [countsBaseSum, countsBase, weightNum20, pyRound_of_pos _ _ h20] <;>
      split_ifs <;> omega

/-! ## Row emission -/

lemma emitFrom_length (ps : List (Level × Competency)) : ∀ n : ℤ, (emitFrom n ps).length = ps.length := by
  induction ps with
  | nil => intro n; rfl
  | cons p rest ih => intro n; simp [emitFrom, ih]

lemma emitFrom_itemNo_getElem (ps : List (Level × Competency)) :
    ∀ (n : ℤ) (i : ℕ) (hi : i < (emitFrom n ps).length), (emitFrom n ps)[i].itemNo = n + i := by
  induction ps with
  | nil => intro n i hi; simp [emitFrom] at hi
  | cons p rest ih =>
    intro n i hi
    cases i with
    | zero => simp [emitFrom, mkRow]
    | succ j =>
      have hj : j < (emitFrom (n + 1) rest).length := by
        simpa [emitFrom] using hi
      simp only [emitFrom, List.getElem_cons_succ]
      rw [ih (n + 1) j hj]
      push_cast
      ring

/-- The item numbers of a block emitted starting at `n` are
`n, n+1, n+2, ...` in order. -/
lemma emitFrom_map_itemNo (ps : List (Level × Competency)) (n : ℤ) :
    (emitFrom n ps).map Row.itemNo
      = (List.range (emitFrom n ps).length).map (fun (i : ℕ) => n + (i : ℤ)) := by
  refine List.ext_getElem (by simp) fun i h1 h2 => ?_
  rw [List.getElem_map, List.getElem_map, List.getElem_range,
    emitFrom_itemNo_getElem ps n i (by simpa using h1)]

lemma emitFrom_map_pair (ps : List (Level × Competency)) :
    ∀ n : ℤ, (emitFrom n ps).map (fun r => (r.competency, r.cognitiveLevel))
      = ps.map (fun p => (p.2.code ++ ": " ++ p.2.desc, p.1.pyName)) := by
  induction ps with
  | nil => intro n; rfl
  | cons p rest ih => intro n; simp [emitFrom, mkRow, ih (n + 1)]

lemma mkRow_itemType (n : ℤ) (l : Level) (c : Competency) :
    (mkRow n l c).itemType = itemTypeOfName (mkRow n l c).cognitiveLevel := by
  cases l <;> rfl

lemma emitFrom_map_itemType (ps : List (Level × Competency)) :
    ∀ n : ℤ, (emitFrom n ps).map Row.itemType
      = (emitFrom n ps).map (fun r => itemTypeOfName r.cognitiveLevel) := by
  induction ps with
  | nil => intro n; rfl
  | cons p rest ih =>
    intro n
    simp only [emitFrom, List.map_cons, ih (n + 1)]
    rw [mkRow_itemType]

lemma emitFrom_map_pointValue (ps : List (Level × Competency)) :
    ∀ n : ℤ, (emitFrom n ps).map Row.pointValue
      = (emitFrom n ps).map (fun r => pointValueFor r.itemType) := by
  induction ps with
  | nil => intro n; rfl
  | cons p rest ih =>
    intro n
    simp only [emitFrom, List.map_cons, ih (n + 1)]
    rfl

/-! ## The single-competency allocation -/

lemma compShare_single (c : Competency) (t : ℤ) : compShare [c] t c = t := by
  unfold compShare
  simp [List.indexOf_cons_self, Int.ediv_one, Int.emod_one]

lemma compCountsBase_self (t : ℤ) (ht : 0 < t) (l : Level) :
    compCountsBase t t l = globalCounts t l := by
  unfold compCountsBase
  exact pyRound_mul_cancel _ _ ht

lemma globalCounts_sum6 (t : ℤ) :
    globalCounts t .remembering + globalCounts t .understanding + globalCounts t .applying +
      globalCounts t .analyzing + globalCounts t .evaluating + globalCounts t .creating = t := by
  have h := globalCounts_sum t
  simp only [levelOrder, List.map_cons, List.map_nil, List.sum_cons, List.sum_nil] at h
  omega

lemma compLevelCounts_self (t : ℤ) (ht : 0 < t) :
    compLevelCounts t t = globalCounts t := by
  have hbase : ∀ l, compCountsBase t t l = globalCounts t l := compCountsBase_self t ht
  have hsum : compCountsBaseSum t t = t := by
    unfold compCountsBaseSum
    rw [hbase, hbase, hbase, hbase, hbase, hbase]
    exact globalCounts_sum6 t
  simp only [compLevelCounts, hsum, sub_self]
  rw [if_neg (lt_irrefl 0)]
  funext l
  exact hbase l

/-! ## The even split across competencies -/

lemma range_map_add_ite_sum (b m : ℤ) (hm : 0 ≤ m) :
    ∀ N : ℕ, ((List.range N).map (fun (i : ℕ) => b + if (i : ℤ) < m then 1 else 0)).sum
      = (N : ℤ) * b + min m (N : ℤ) := by
  intro N
  induction N with
  | zero => simp; omega
  | succ n ih =>
    rw [List.range_succ, List.map_append, List.sum_append, ih]
    simp only [List.map_cons, List.map_nil, List.sum_cons, List.sum_nil]
    push_cast
    have hb : ((n : ℤ) + 1) * b = (n : ℤ) * b + b := by ring
    rw [hb]
    split_ifs with h <;> omega

/-! ## Claim C1 -/

/-- C1, counterexample: with the two distinct competencies
`[sampleCompetency, sampleCompetencyB]` and `totalItems = 3`, the
allocator returns 4 rows, not 3: the first competency receives a share
of 2 items but its rounded per-level shares sum to 3, and the negative
difference is never corrected, so the row sequence length is not
`totalItems`. -/
theorem c1_row_count_counterexample :
    ((generate_tos [sampleCompetency, sampleCompetencyB] 3).getD []).length = 4 ∧
    ((generate_tos [sampleCompetency, sampleCompetencyB] 3).getD []).length ≠ 3 := by
  decide

/-- C1, amended: for a SINGLE competency and every `totalItems ≥ 1` the
row sequence returned by `generate_tos` has length exactly `totalItems`;
with two or more competencies the length can exceed `totalItems`,
because a negative per-competency rounding difference is left
uncorrected (see the counterexample). -/
theorem c1_single_competency_row_count (c : Competency) (t : ℤ) (ht : 1 ≤ t) :
    ((generate_tos [c] t).getD []).length = t.toNat := by
  have h0 : ¬([c] ≠ [] ∧ t = 0) := by rintro ⟨-, h⟩; omega
  simp only [generate_tos, if_neg h0, Option.getD_some]
  have hflat : ([c].flatMap (compPairs [c] t)) = compPairs [c] t c := by simp
  rw [hflat, emitFrom_length]
  simp only [compPairs, compShare_single, compLevelCounts_self t (by omega)]
  simp only [levelOrder, List.flatMap_cons, List.flatMap_nil, List.append_nil,
    List.length_append, List.length_replicate]
  have h1 := globalCounts_nonneg t ht .remembering
  have h2 := globalCounts_nonneg t ht .understanding
  have h3 := globalCounts_nonneg t ht .applying
  have h4 := globalCounts_nonneg t ht .analyzing
  have h5 := globalCounts_nonneg t ht .evaluating
  have h6 := globalCounts_nonneg t ht .creating
  have hs := globalCounts_sum6 t
  omega

/-- C1, witness: the amended theorem applied at the concrete input
`([sampleCompetency], 10)`. -/
theorem c1_single_competency_row_count_witness :
    (1 : ℤ) ≤ 10 ∧ ((generate_tos [sampleCompetency] 10).getD []).length = (10 : ℤ).toNat :=
  ⟨by norm_num, c1_single_competency_row_count sampleCompetency 10 (by norm_num)⟩

/-! ## Claim C2 -/

/-- C2, counterexample: `generate_tos` called with an empty competency
list does NOT fail: it returns an empty row sequence normally, so no
`InvalidInput` error exists in the allocator. -/
theorem c2_no_invalid_input_counterexample :
    generate_tos [] 5 = some [] ∧ generate_tos [] 5 ≠ none :=
  ⟨rfl, by decide⟩

/-- C2, amended: the allocator performs no input validation and has no
`InvalidInput` error.  Its only failure, for every input, is the
`ZeroDivisionError` raised exactly when the competency list is
non-empty and `totalItems = 0`, before any row is emitted; every other
input returns a row sequence normally.  In particular an empty
competency list yields an empty row sequence for every `totalItems`
(the loop body never runs), and a negative `totalItems` returns without
error — possibly even with rows: two competencies with
`totalItems = -5` emit one Applying row.  The empty-list check lives in
the UI layer, outside the allocator. -/
theorem c2_no_validation_amended :
    (∀ t : ℤ, generate_tos [] t = some []) ∧
    (∀ (comps : List Competency) (t : ℤ),
      generate_tos comps t = none ↔ (comps ≠ [] ∧ t = 0)) ∧
    ((generate_tos [sampleCompetency, sampleCompetencyB] (-5)).getD []).map
        (fun r => r.cognitiveLevel) = ["Applying"] := by
  refine ⟨fun _ => rfl, fun comps t => ?_, by decide⟩
  simp only [generate_tos]
  split_ifs with h
  · simp [h]
  · simp [h]

/-! ## Claim C3 -/

/-- C3, counterexample: the extra item goes to a competency when the
FIRST index of its value in the list is below `totalItems mod N`, so
with the duplicated list `[sampleCompetency, sampleCompetency]` and
`totalItems = 3` both occurrences receive the extra item and the
per-competency shares sum to 4, not 3. -/
theorem c3_share_sum_counterexample :
    (([sampleCompetency, sampleCompetency]).map
        (compShare [sampleCompetency, sampleCompetency] 3)).sum = 4 ∧
    (([sampleCompetency, sampleCompetency]).map
        (compShare [sampleCompetency, sampleCompetency] 3)).sum ≠ 3 := by
  decide

/-- C3, amended: provided the competencies are pairwise distinct, the
share of the competency at position `i` is the base share
`totalItems div N` plus one exactly when `i < totalItems mod N`, and
the shares sum to exactly `totalItems`. -/
theorem c3_share_formula_nodup (comps : List Competency) (t : ℤ)
    (hnd : comps.Nodup) (hne : comps ≠ []) (ht : 1 ≤ t) :
    (∀ i, (hi : i < comps.length) →
        compShare comps t comps[i]
          = t / (comps.length : ℤ) + (if (i : ℤ) < t % (comps.length : ℤ) then 1 else 0))
    ∧ (comps.map (compShare comps t)).sum = t := by
  have hlen : 0 < comps.length := List.length_pos.mpr hne
  have hpart1 : ∀ i, (hi : i < comps.length) →
      compShare comps t comps[i]
        = t / (comps.length : ℤ) + (if (i : ℤ) < t % (comps.length : ℤ) then 1 else 0) := by
    intro i hi
    unfold compShare
    rw [List.indexOf_getElem hnd i hi]
  refine ⟨hpart1, ?_⟩
  have hN : (0 : ℤ) < (comps.length : ℤ) := by exact_mod_cast hlen
  have hm0 : 0 ≤ t % (comps.length : ℤ) := Int.emod_nonneg t (ne_of_gt hN)
  have hmN : t % (comps.length : ℤ) < (comps.length : ℤ) := Int.emod_lt_of_pos t hN
  have hmap : comps.map (compShare comps t)
      = (List.range comps.length).map
          (fun (i : ℕ) => t / (comps.length : ℤ)
            + if (i : ℤ) < t % (comps.length : ℤ) then 1 else 0) := by
    refine List.ext_getElem (by simp) fun i h1 h2 => ?_
    rw [List.getElem_map, List.getElem_map, List.getElem_range]
    exact hpart1 i (by simpa using h1)
  rw [hmap, range_map_add_ite_sum _ _ hm0]
  rw [min_eq_left (le_of_lt hmN)]
  exact Int.ediv_add_emod t (comps.length : ℤ)

/-- C3, witness: the amended theorem at `totalItems = 10` with three
distinct competencies; the shares are 4, 3, 3 and sum to 10. -/
theorem c3_share_formula_nodup_witness :
    (([sampleCompetency, sampleCompetencyB, sampleCompetencyC]).map
        (compShare [sampleCompetency, sampleCompetencyB, sampleCompetencyC] 10)).sum = 10 :=
  (c3_share_formula_nodup [sampleCompetency, sampleCompetencyB, sampleCompetencyC] 10
    (by decide) (by decide) (by norm_num)).2

/-! ## Claim C4 -/

/-- C4: for every `totalItems ≥ 1`, the global per-level counts —
`round(weight × totalItems)` per cognitive level, with a positive
shortfall added entirely to Applying and a negative excess added
entirely to Creating — sum to exactly `totalItems`. -/
theorem c4_global_counts_sum_exact (t : ℤ) (ht : 1 ≤ t) :
    (levelOrder.map (globalCounts t)).sum = t :=
  globalCounts_sum t

/-- C4, witness: the theorem applied at `totalItems = 30`. -/
theorem c4_global_counts_sum_exact_witness :
    (1 : ℤ) ≤ 30 ∧ (levelOrder.map (globalCounts 30)).sum = 30 :=
  ⟨by norm_num, c4_global_counts_sum_exact 30 (by norm_num)⟩

/-! ## Claim C5 -/

/-- C5, counterexample: for a single competency and `totalItems = 10`
the Applying level receives 2 items, not the claimed 3: the Python
`round` builtin rounds half to even, so `round(0.25 × 10) = round(2.5)
= 2` and `round(0.15 × 10) = round(1.5) = 2`, the six counts already
sum to 10, and no rounding correction is applied to Applying. -/
theorem c5_single_comp_ten_counterexample :
    (((generate_tos [sampleCompetency] 10).getD []).countP
        (fun r => r.cognitiveLevel == "Applying")) = 2 ∧
    (((generate_tos [sampleCompetency] 10).getD []).countP
        (fun r => r.cognitiveLevel == "Applying")) ≠ 3 := by
  decide

/-- C5, amended: `generate_tos [sampleCompetency] 10` returns 10 rows,
all attributed to that competency, with per-level counts
Remembering 2, Understanding 2, Applying 2, Analyzing 2, Evaluating 1,
Creating 1, summing to 10 (no rounding correction occurs). -/
theorem c5_single_comp_ten_amended :
    ((generate_tos [sampleCompetency] 10).getD []).length = 10 ∧
    (((generate_tos [sampleCompetency] 10).getD []).all
      (fun r => r.competency == "M7NS-Ia-1: Describes well-defined sets, subsets, universal set, and the null set and cardinality of sets.")) = true ∧
    ((generate_tos [sampleCompetency] 10).getD []).map Row.cognitiveLevel =
      ["Remembering", "Remembering", "Understanding", "Understanding", "Applying", "Applying",
       "Analyzing", "Analyzing", "Evaluating", "Creating"] := by
  refine ⟨rfl, rfl, rfl⟩

/-! ## Claim C6 -/

/-- C6, counterexample: with `[sampleCompetency, sampleCompetencyB]`
and `totalItems = 3` the emitted item numbers are `1, 2, 3, 4` — a
contiguous sequence, but not the claimed `1..totalItems = 1..3`,
because 4 rows are emitted. -/
theorem c6_item_numbers_counterexample :
    ((generate_tos [sampleCompetency, sampleCompetencyB] 3).getD []).map Row.itemNo
      = [1, 2, 3, 4] ∧
    ((generate_tos [sampleCompetency, sampleCompetencyB] 3).getD []).map Row.itemNo
      ≠ [1, 2, 3] := by
  decide

/-- C6, amended: for every input, the item numbers of the rows of
`generate_tos` form the contiguous sequence `1..K` with no gaps and no
repeats, where `K` is the number of emitted rows (which can differ from
`totalItems`, see the C1 counterexample). -/
theorem c6_item_numbers_contiguous (comps : List Competency) (t : ℤ) :
    ((generate_tos comps t).getD []).map Row.itemNo
      = (List.range ((generate_tos comps t).getD []).length).map
          (fun (i : ℕ) => (i : ℤ) + 1) := by
  simp only [generate_tos]
  split_ifs
  · rfl
  · simp only [Option.getD_some]
    rw [emitFrom_map_itemNo]
    exact List.map_congr_left fun i _ => by ring

/-! ## Claim C7 -/

/-- C7: in every emitted row, the item type is the fixed pure function
of the cognitive level (Remembering/Understanding give Multiple Choice,
Applying/Analyzing give Short Answer, Evaluating/Creating give Essay)
and the point value is the fixed pure function of the item type
(Multiple Choice 1, Short Answer 2, Essay 5). -/
theorem c7_item_type_point_value_pure (comps : List Competency) (t : ℤ) :
    (((generate_tos comps t).getD []).map Row.itemType
        = ((generate_tos comps t).getD []).map (fun r => itemTypeOfName r.cognitiveLevel)
      ∧ ((generate_tos comps t).getD []).map Row.pointValue
        = ((generate_tos comps t).getD []).map (fun r => pointValueFor r.itemType))
    ∧ (itemTypeOfName "Remembering" = "Multiple Choice"
      ∧ itemTypeOfName "Understanding" = "Multiple Choice"
      ∧ itemTypeOfName "Applying" = "Short Answer"
      ∧ itemTypeOfName "Analyzing" = "Short Answer"
      ∧ itemTypeOfName "Evaluating" = "Essay"
      ∧ itemTypeOfName "Creating" = "Essay")
    ∧ (pointValueFor "Multiple Choice" = 1
      ∧ pointValueFor "Short Answer" = 2
      ∧ pointValueFor "Essay" = 5) := by
  refine ⟨?_, by decide, by decide⟩
  simp only [generate_tos]
  split_ifs
  · exact ⟨rfl, rfl⟩
  · simp only [Option.getD_some]
    exact ⟨emitFrom_map_itemType _ 1, emitFrom_map_pointValue _ 1⟩

/-! ## Claim C8 -/

/-- C8: for every valid input, the rows are emitted grouped by
competency in input order (outer), within each competency in the fixed
level order Remembering, Understanding, Applying, Analyzing,
Evaluating, Creating (inner) with the per-competency level shares as
repetition counts, and the item numbers are assigned sequentially from
1 in that traversal order. -/
theorem c8_emission_order (comps : List Competency) (t : ℤ) (hne : comps ≠ []) (ht : 1 ≤ t) :
    ∃ rows, generate_tos comps t = some rows
      ∧ rows.map (fun r => (r.competency, r.cognitiveLevel))
          = comps.flatMap (fun c => levelOrder.flatMap (fun l =>
              List.replicate ((compLevelCounts t (compShare comps t c) l).toNat)
                (c.code ++ ": " ++ c.desc, l.pyName)))
      ∧ rows.map Row.itemNo
          = (List.range rows.length).map (fun (i : ℕ) => (i : ℤ) + 1) := by
  have h0 : ¬(comps ≠ [] ∧ t = 0) := by rintro ⟨-, h⟩; omega
  refine ⟨emitFrom 1 (comps.flatMap (compPairs comps t)), ?_, ?_, ?_⟩
  · simp only [generate_tos, if_neg h0]
  · rw [emitFrom_map_pair, List.map_flatMap]
    simp only [compPairs, List.map_flatMap, List.map_replicate]
  · rw [emitFrom_map_itemNo]
    exact List.map_congr_left fun i _ => by ring

/-- C8, witness: the theorem applied at `([sampleCompetency], 10)`. -/
theorem c8_emission_order_witness :
    ∃ rows, generate_tos [sampleCompetency] 10 = some rows
      ∧ rows.map (fun r => (r.competency, r.cognitiveLevel))
          = [sampleCompetency].flatMap (fun c => levelOrder.flatMap (fun l =>
              List.replicate ((compLevelCounts 10 (compShare [sampleCompetency] 10 c) l).toNat)
                (c.code ++ ": " ++ c.desc, l.pyName)))
      ∧ rows.map Row.itemNo
          = (List.range rows.length).map (fun (i : ℕ) => (i : ℤ) + 1) :=
  c8_emission_order [sampleCompetency] 10 (by decide) (by norm_num)

/-! ## Claim C9 -/

lemma quizStep_isNone (r : Row) :
    (quizStep r).isNone = (BLOOM_VERBS r.cognitiveLevel).isNone := by
  unfold quizStep
  cases BLOOM_VERBS r.cognitiveLevel with
  | none => rfl
  | some verbs => split_ifs <;> rfl

/-- C9, counterexample: a row whose Item Type is the unrecognised value
"Bogus" does NOT make `generate_quiz_items` fail — the final `else`
branch renders it with the Essay template. -/
theorem c9_invalid_type_counterexample :
    generate_quiz_items [bogusTypeRow] ≠ none ∧
    (generate_quiz_items [bogusTypeRow]).map (fun items => items.map QuizItem.answer)
      = some ["[Rubric: 5 pts total]\n• Content (3 pts): Accurate science, clear steps\n• Organization (1 pt): Logical flow\n• Mechanics (1 pt): Grammar, spelling\n"] := by
  exact ⟨by decide, rfl⟩

/-- C9, amended: `generate_quiz_items` does not validate the Item Type
(any value other than Multiple Choice and Short Answer falls into the
Essay branch, see the counterexample); its only error condition is a
Cognitive Level absent from the verb table, which fails the
`BLOOM_VERBS[level]` lookup. -/
theorem c9_error_condition_amended (rows : List Row) :
    (generate_quiz_items rows).isNone
      = rows.any (fun r => (BLOOM_VERBS r.cognitiveLevel).isNone) := by
  induction rows with
  | nil => rfl
  | cons r rest ih =>
    simp only [generate_quiz_items, List.any_cons]
    rw [← quizStep_isNone, ← ih]
    cases quizStep r <;> cases generate_quiz_items rest <;> rfl

/-! ## Claim C10 -/

/-- C10: with an empty competency list, `generate_tos` raises no error
and returns an empty row sequence, for any `totalItems`: the
per-competency loop body never runs, so no division and no row emission
occurs. -/
theorem c10_empty_list_returns_empty (t : ℤ) : generate_tos [] t = some [] := rfl

end TosApp
